import Mathlib

/-!
Verification development for the llm-orchestrator core
(`src/agents/orchestrator_agent.py`).

The Python source is shallowly embedded below: pure functions become Lean
functions, the mutable `MemoryManager` state becomes explicit state passing,
Python floats are modelled as exact rationals, and the JSON round-trip through
`json.dumps` / `json.loads` is modelled by the `Content` inductive together
with accessor functions mirroring `dict.get` with its defaults.
-/

namespace Orchestrator

/-! Python string primitives:

`pyLower` models `str.lower()` (the queries in play are ASCII),
`pySplit` models `str.split()` with no separator: split on whitespace runs,
discarding empty tokens.  `strContainsSub hay needle` models
`needle in hay` on strings (substring containment).
All are structurally recursive so that `decide` can evaluate them. -/

def pyLower (s : String) : String := String.mk (s.toList.map Char.toLower)

def splitWsAux : List Char → List Char → List String
  | [], cur => if cur.isEmpty then [] else [String.mk cur.reverse]
  | c :: cs, cur =>
    if c.isWhitespace then
      (if cur.isEmpty then splitWsAux cs [] else String.mk cur.reverse :: splitWsAux cs [])
    else splitWsAux cs (c :: cur)

def pySplit (s : String) : List String := splitWsAux s.toList []

def listHasSub (needle hay : List Char) : Bool :=
  (List.range (hay.length + 1)).any (fun i => needle.isPrefixOf (hay.drop i))

def strContainsSub (hay needle : String) : Bool := listHasSub needle.toList hay.toList

/-! Complexity analyzer: `IntelligentRouter.analyze_query_complexity`. -/

/-- Result dict of `analyze_query_complexity` (source lines 120-125). -/
structure ComplexitySignals where
  general_complexity : ℚ
  code_requirement : ℚ
  multimodal_requirement : ℚ
  math_requirement : ℚ
deriving DecidableEq

/-- Source line 104. -/
def reasoning_keywords : List String :=
  ["analyze", "compare", "evaluate", "explain why", "reasoning", "logic"]

/-- Source line 109. -/
def code_keywords : List String :=
  ["code", "programming", "function", "algorithm", "debug", "implement"]

/-- Source line 113. -/
def multimodal_keywords : List String :=
  ["image", "picture", "visual", "diagram", "chart"]

/-- Source line 117. -/
def math_keywords : List String :=
  ["calculate", "equation", "formula", "mathematics", "statistics"]

/-- Source lines 92-125, `IntelligentRouter.analyze_query_complexity`.
The `context` parameter is accepted but never read, exactly as in the source. -/
def analyze_query_complexity (query : String) (context : Option String) : ComplexitySignals :=
  let query_lower := pyLower query
  let complexity_score : ℚ :=
    (if 500 < query.length then 0.2 else 0) +
    (if reasoning_keywords.any (fun k => strContainsSub query_lower k) then 0.3 else 0)
  { general_complexity := min complexity_score 1
    code_requirement :=
      if code_keywords.any (fun k => strContainsSub query_lower k) then 0.5 else 0
    multimodal_requirement :=
      if multimodal_keywords.any (fun k => strContainsSub query_lower k) then 0.8 else 0
    math_requirement :=
      if math_keywords.any (fun k => strContainsSub query_lower k) then 0.4 else 0 }

/-! Router: `IntelligentRouter.route_query`. -/

/-- One value of the `model_info` dict (source lines 59-90). -/
structure ModelInfo where
  cost_per_token : ℚ
  avg_latency : ℚ
  capabilities : List String
  max_context : ℕ
deriving DecidableEq

/-- Source lines 38-45, the `RoutingDecision` dataclass. -/
structure RoutingDecision where
  model : String
  reasoning : String
  confidence : ℚ
  estimated_cost : ℚ
  estimated_latency : ℚ
deriving DecidableEq

/-- The `user_preferences` dict: each key may be absent (`dict.get` default). -/
structure UserPrefs where
  cost_priority : Option ℚ
  speed_priority : Option ℚ
  quality_priority : Option ℚ
deriving DecidableEq

/-- Router state: availability lists and the (insertion-ordered) `model_info`
dict, modelled as an association list in insertion order.  `__init__` also
stores cost/latency/quality thresholds, but no routing code reads them, so
they are omitted. -/
structure IntelligentRouter where
  local_models : List String
  cloud_models : List String
  model_info : List (String × ModelInfo)
deriving DecidableEq

/-- The five-entry catalog built in `IntelligentRouter.__init__`
(source lines 59-90), in dict insertion order. -/
def builtinModelInfo : List (String × ModelInfo) :=
  [("llama3.1:8b",
    { cost_per_token := 0, avg_latency := 50,
      capabilities := ["general", "reasoning"], max_context := 128000 }),
   ("llama3.1:70b",
    { cost_per_token := 0, avg_latency := 200,
      capabilities := ["general", "reasoning", "complex"], max_context := 128000 }),
   ("codellama:13b",
    { cost_per_token := 0, avg_latency := 100,
      capabilities := ["code", "programming"], max_context := 16000 }),
   ("gpt-4o-mini",
    { cost_per_token := 0.00015, avg_latency := 800,
      capabilities := ["general", "reasoning", "complex", "multimodal"],
      max_context := 128000 }),
   ("gpt-4o",
    { cost_per_token := 0.005, avg_latency := 1200,
      capabilities := ["general", "reasoning", "complex", "multimodal", "advanced"],
      max_context := 128000 })]

/-- Cost scoring, source line 149. -/
def costScoreOf (info : ModelInfo) : ℚ :=
  if info.cost_per_token = 0 then 1 else max 0 (1 - info.cost_per_token * 1000)

/-- Speed scoring, source line 153. -/
def speedScoreOf (info : ModelInfo) : ℚ := max 0 (1 - info.avg_latency / 2000)

/-- Quality scoring, source lines 157-165: base 0.5 plus at most one boost
(the `if`/`elif` chain makes the three boosts mutually exclusive). -/
def qualityScoreOf (analysis : ComplexitySignals) (info : ModelInfo) : ℚ :=
  0.5 +
    (if 0.5 < analysis.code_requirement ∧ "code" ∈ info.capabilities then 0.3
     else if 0.5 < analysis.multimodal_requirement ∧ "multimodal" ∈ info.capabilities then 0.4
     else if 0.7 < analysis.general_complexity ∧ "complex" ∈ info.capabilities then 0.3
     else 0)

/-- Total score of one candidate, source lines 150-167
(`score += part * weight` accumulation). -/
def totalScoreOf (analysis : ComplexitySignals) (cw sw qw : ℚ) (info : ModelInfo) : ℚ :=
  costScoreOf info * cw + speedScoreOf info * sw + qualityScoreOf analysis info * qw

/-- Renders a rational with two decimal places, modelling the `:.2f` format
used for the reasoning trace (source lines 173-176).  The Python float
formatter rounds half-to-even on the binary value; the difference can only
show up in the last printed digit and no claim depends on the digits. -/
def fmt2 (q : ℚ) : String :=
  let n : ℤ := ⌊q * 100 + 1 / 2⌋
  let m : ℕ := n.natAbs
  (if n < 0 then "-" else "") ++ toString (m / 100) ++ "." ++
    (if m % 100 < 10 then "0" else "") ++ toString (m % 100)

/-- Loop state of the scoring loop (source lines 139-141). -/
structure RouteState where
  best_model : Option String
  best_score : ℚ
  reasoning_parts : List String

/-- One iteration of the scoring loop (source lines 143-177). -/
def routeStep (locals clouds : List String) (analysis : ComplexitySignals)
    (cw sw qw : ℚ) (st : RouteState) (entry : String × ModelInfo) : RouteState :=
  if entry.1 ∈ locals ∨ entry.1 ∈ clouds then
    let cost_score := costScoreOf entry.2
    let speed_score := speedScoreOf entry.2
    let quality_score := qualityScoreOf analysis entry.2
    let score := totalScoreOf analysis cw sw qw entry.2
    if st.best_score < score then
      { best_model := some entry.1
        best_score := score
        reasoning_parts :=
          ["Cost score: " ++ fmt2 cost_score,
           "Speed score: " ++ fmt2 speed_score,
           "Quality score: " ++ fmt2 quality_score,
           "Total score: " ++ fmt2 score] }
    else st
  else st

/-- Source line 180: the first configured local model name when the local
list is non-empty, else the fixed default name gpt-4o-mini. -/
def fallbackName (locals : List String) : String :=
  match locals with
  | [] => "gpt-4o-mini"
  | m :: _ => m

/-- Dict lookup `model_info.get` with an empty-dict default (source line 183),
on the association-list model of the dict. -/
def lookupInfo (catalog : List (String × ModelInfo)) (name : String) : Option ModelInfo :=
  (catalog.find? (fun p => p.1 == name)).map Prod.snd

/-- Source lines 127-191, `IntelligentRouter.route_query`. -/
def route_query (r : IntelligentRouter) (query : String) (context : Option String)
    (user_preferences : Option UserPrefs) : RoutingDecision :=
  let analysis := analyze_query_complexity query context
  let cost_weight := (Option.bind user_preferences UserPrefs.cost_priority).getD 0.7
  let speed_weight := (Option.bind user_preferences UserPrefs.speed_priority).getD 0.2
  let quality_weight := (Option.bind user_preferences UserPrefs.quality_priority).getD 0.1
  let st := r.model_info.foldl
    (routeStep r.local_models r.cloud_models analysis cost_weight speed_weight quality_weight)
    { best_model := none, best_score := -1, reasoning_parts := [] }
  -- `if not best_model:` is true for `None` and for an empty string name
  let chosen : Option String :=
    match st.best_model with
    | none => none
    | some "" => none
    | some m => some m
  let best_model :=
    match chosen with
    | none => fallbackName r.local_models
    | some m => m
  let parts :=
    match chosen with
    | none => ["Fallback to default model"]
    | some _ => st.reasoning_parts
  let info := lookupInfo r.model_info best_model
  { model := best_model
    reasoning := String.intercalate "; " parts
    confidence := st.best_score
    estimated_cost := (Option.getD (Option.map ModelInfo.cost_per_token info) 0) *
      ((pySplit query).length : ℚ)
    estimated_latency := Option.getD (Option.map ModelInfo.avg_latency info) 1000 }

/-! Memory manager: `MemoryManager`.

The source stores every log entry as a `Msg` whose `content` is a JSON string
(`json.dumps` of a dict) and whose `role` is `"memory"` for interaction
records and `"summary"` for the compaction summary.  The in-file fallback
`MemoryBank` (source lines 28-36) is a plain Python list with `add` = append,
which is what we embed.  The JSON round-trip is modelled by `Content`:
a record dict, a summary dict, or an undecodable entry (`json.loads` raises).
-/

/-- The interaction dict built in `add_interaction` (source lines 204-211).
Numeric metadata is modelled as exact rationals. -/
structure Interaction where
  query : String
  response : String
  timestamp : ℚ
  model_used : String
  cost : ℚ
  latency : ℚ
deriving DecidableEq

/-- The summary dict built in `_create_summary` (source lines 257-263).
`interactionCount` is the count rendered into the `period` field
(`f"{n} interactions"`). `main_topics` is kept as the Python set `topics`
itself: the source materializes `list(topics)[:10]`, whose element order
(and, past 10 elements, selection) is the runtime set-iteration order, which
is not derivable from the program text (string hashing is per-process
randomized); no theorem below depends on it.  The constant `type` and
`compressed_at` fields are omitted. -/
structure SummaryData where
  interactionCount : ℕ
  total_cost : ℚ
  main_topics : Finset String
deriving DecidableEq

/-- What a stored `msg.content` string decodes to. -/
inductive Content
  | record (i : Interaction)
  | summaryC (s : SummaryData)
  | malformed
deriving DecidableEq

/-- A stored message: `role` plus JSON `content`. -/
structure Msg where
  role : String
  content : Content
deriving DecidableEq

/-- Source line 213: a record message with role memory holding the JSON of
the interaction dict. -/
def recMsgOf (i : Interaction) : Msg := { role := "memory", content := Content.record i }

/-- Source line 235: a summary message with role summary. -/
def sumMsgOf (s : SummaryData) : Msg := { role := "summary", content := Content.summaryC s }

/-- Decoding `json.loads(msg.content)` followed by a `data.get` of the query
key with the empty-string default: a summary dict has no query key, so it
yields the default empty string; an undecodable entry raises, modelled as
`none`. -/
def parsedQuery : Content → Option String
  | Content.record i => some i.query
  | Content.summaryC _ => some ""
  | Content.malformed => none

/-- Decoding `json.loads(msg.content)` followed by a `data.get` of the cost
key with default 0: a summary dict stores its accumulated cost under the
total_cost key, not under cost, so folding a prior summary yields the
default 0. -/
def parsedCost : Content → Option ℚ
  | Content.record c => some c.cost
  | Content.summaryC _ => some 0
  | Content.malformed => none

/-- State of `MemoryManager`: the two config values and the `MemoryBank` list. -/
structure MemoryManager where
  compression_threshold : ℕ
  max_memory_size : ℕ
  memory : List Msg
deriving DecidableEq

/-- Topic tokens contributed by one folded entry (source lines 249-252):
the decoded query, lower-cased and whitespace-split, keeping words of
length > 4. -/
def topicWordsOf (c : Content) : List String :=
  match parsedQuery c with
  | none => []
  | some q => (pySplit (pyLower q)).filter (fun w => 4 < w.length)

/-- Source lines 240-265, `MemoryManager._create_summary`.
`interactionCount` is `len(memories)` — the count of all folded messages,
including a folded prior summary and undecodable entries; `total_cost` adds
`data.get('cost', 0)` of every entry that decodes. -/
def create_summary (memories : List Msg) : SummaryData :=
  { interactionCount := memories.length
    total_cost := (memories.filterMap (fun m => parsedCost m.content)).sum
    main_topics :=
      memories.foldl (fun acc m => acc ∪ (topicWordsOf m.content).toFinset) ∅ }

/-- Python slice `xs[-t:]`.  For `t = 0` this is `xs[0:]`, the whole list. -/
def pyLastSlice (t : ℕ) (xs : List Msg) : List Msg :=
  if t = 0 then xs else xs.drop (xs.length - t)

/-- Python slice `xs[:-t]`.  For `t = 0` this is `xs[:0]`, the empty list. -/
def pyDropLastSlice (t : ℕ) (xs : List Msg) : List Msg :=
  if t = 0 then [] else xs.take (xs.length - t)

/-- Source lines 219-238, `MemoryManager._compress_memory`. -/
def compress_memory (t : ℕ) (memory : List Msg) : List Msg :=
  if t < memory.length then
    sumMsgOf (create_summary (pyDropLastSlice t memory)) :: pyLastSlice t memory
  else memory

/-- Source lines 202-217, `MemoryManager.add_interaction`: append the record,
then compress when the log length exceeds `max_memory_size`.  The interaction
dict is taken already assembled (query/response/metadata fields). -/
def add_interaction (mm : MemoryManager) (i : Interaction) : MemoryManager :=
  let memory := mm.memory ++ [recMsgOf i]
  if mm.max_memory_size < memory.length then
    { mm with memory := compress_memory mm.compression_threshold memory }
  else
    { mm with memory := memory }

/-- Token set of a query (source lines 273, 282), kept as a token list;
`overlapB` below tests the set intersection, where duplicates are irrelevant. -/
def queryTokens (q : String) : List String := pySplit (pyLower q)

/-- Source lines 285-286: the overlap test, true exactly when the set
intersection of the two token sets is non-empty. -/
def overlapB (qw : List String) (mq : String) : Bool :=
  (queryTokens mq).any (fun w => qw.contains w)

/-- The retrieval scan (source lines 275-292), one message at a time over the
reversed log.  A `"summary"` role is always appended without decoding; other
entries are decoded (`none` = `json.loads` raised: the `except: continue`
skips the remainder of the iteration, including the cap check); an entry with
token overlap is appended.  After the `if`/`else` the source checks
`len(relevant_items) >= max_items` and breaks — the check is written once per
branch here to keep the recursion structural. -/
def retrieveAux (qw : List String) (max_items : ℕ) : List Msg → List Content → List Content
  | [], acc => acc
  | m :: rest, acc =>
    if m.role = "summary" then
      (if max_items ≤ (acc ++ [m.content]).length then acc ++ [m.content]
       else retrieveAux qw max_items rest (acc ++ [m.content]))
    else
      match parsedQuery m.content with
      | none => retrieveAux qw max_items rest acc
      | some mq =>
        if overlapB qw mq then
          (if max_items ≤ (acc ++ [m.content]).length then acc ++ [m.content]
           else retrieveAux qw max_items rest (acc ++ [m.content]))
        else
          (if max_items ≤ acc.length then acc else retrieveAux qw max_items rest acc)

/-- Source lines 267-294, `MemoryManager.retrieve_relevant_context`, returning
the collected `relevant_items` list; the source returns
`"\n".join(relevant_items)` of exactly this list. -/
def retrieve_relevant_context (mm : MemoryManager) (query : String) (max_items : ℕ) :
    List Content :=
  retrieveAux (queryTokens query) max_items mm.memory.reverse []

/-! Claim-side reference definitions and concrete inputs. -/

/-- The records selected by the spec-described scan: newest-to-oldest over the
`InteractionRecord`s, keeping those whose stored query shares a token with
the input query. -/
def matchedRecords (q : String) (recs : List Interaction) : List Content :=
  recs.reverse.filterMap
    (fun i => if overlapB (queryTokens q) i.query then some (Content.record i) else none)

/-- A log-tail entry: a decodable record or an undecodable `"memory"` entry. -/
def optRecMsg : Option Interaction → Msg
  | some i => recMsgOf i
  | none => { role := "memory", content := Content.malformed }

/-- The content a tail entry contributes to the scan result. -/
def matchContent (qw : List String) : Option Interaction → Option Content
  | some i => if overlapB qw i.query then some (Content.record i) else none
  | none => none

/-- An optional leading summary message. -/
def sumMsgsOf : Option SummaryData → List Msg
  | some s => [sumMsgOf s]
  | none => []

/-- Matches of the newest-to-oldest scan over a tail of records and
undecodable entries. -/
def matchedOptRecords (q : String) (tail : List (Option Interaction)) : List Content :=
  tail.reverse.filterMap (matchContent (queryTokens q))

/-- Whether a content entry is an `InteractionRecord`. -/
def isRecordB : Content → Bool
  | Content.record _ => true
  | _ => false

/-- The `InteractionRecord` entries of a retrieval result. -/
def recordEntries (l : List Content) : List Content := l.filter isRecordB

/-- The summary at the head of the log, when there is one. -/
def headSummary (mem : List Msg) : Option SummaryData :=
  match mem with
  | { role := _, content := Content.summaryC s } :: _ => some s
  | _ => none

/-- A concrete interaction record with the given query and cost. -/
def mkI (q : String) (c : ℚ) : Interaction :=
  { query := q, response := "", timestamp := 0, model_used := "", cost := c, latency := 0 }

/-- Concrete summary for the C1 counterexample log. -/
def sC1 : SummaryData := { interactionCount := 3, total_cost := 7, main_topics := ∅ }

/-- C1 counterexample log: a summary followed by one record whose query
matches the retrieval query. -/
def mmC1 : MemoryManager :=
  { compression_threshold := 10, max_memory_size := 100,
    memory := [sumMsgOf sC1, recMsgOf (mkI "hello" 0)] }

/-- Concrete summary for the C1 witness. -/
def sWC1 : SummaryData := { interactionCount := 1, total_cost := 0, main_topics := ∅ }

/-- C2 counterexample run: threshold 1, ceiling 2, four records of cost 5.
The third append folds two records into a summary with total_cost 10; the
fourth append folds that summary together with one record of cost 5. -/
def mmC2 : MemoryManager :=
  List.foldl add_interaction
    { compression_threshold := 1, max_memory_size := 2, memory := [] }
    [mkI "a" 5, mkI "a" 5, mkI "a" 5, mkI "a" 5]

/-- Concrete prior summary for the C2 witness. -/
def sPC2 : SummaryData := { interactionCount := 2, total_cost := 10, main_topics := ∅ }

/-- C3 counterexample configuration: compression threshold 0, ceiling 1. -/
def mmC3 : MemoryManager :=
  { compression_threshold := 0, max_memory_size := 1, memory := [] }

/-- C8 counterexample log: a single record whose query matches. -/
def mmC8 : MemoryManager :=
  { compression_threshold := 10, max_memory_size := 100,
    memory := [recMsgOf (mkI "hello" 0)] }

/-- Concrete summary for the C8 witness. -/
def sWC8 : SummaryData := { interactionCount := 4, total_cost := 0, main_topics := ∅ }

/-- C7 witness: a zero-cost backend profile. -/
def miC7a : ModelInfo :=
  { cost_per_token := 0, avg_latency := 50, capabilities := ["general"], max_context := 1000 }

/-- C7 witness: a paid backend profile with the same latency and capabilities. -/
def miC7b : ModelInfo :=
  { cost_per_token := 5, avg_latency := 50, capabilities := ["general"], max_context := 1000 }

/-- C5 witness router: only a non-catalog local backend is configured. -/
def rC5 : IntelligentRouter :=
  { local_models := ["my-local-model"], cloud_models := [], model_info := builtinModelInfo }

/-- C6 witness router: the example configuration of the source. -/
def rC6 : IntelligentRouter :=
  { local_models := ["llama3.1:8b", "codellama:13b"],
    cloud_models := ["gpt-4o-mini", "gpt-4o"], model_info := builtinModelInfo }

/-! Helper lemmas about the retrieval scan. -/

lemma retrieveAux_map_opt (qw : List String) (maxI : ℕ) :
    ∀ (l : List (Option Interaction)) (acc : List Content), acc.length < maxI →
    retrieveAux qw maxI (l.map optRecMsg) acc =
      (acc ++ l.filterMap (matchContent qw)).take maxI := by
  intro l
  induction l with
  | nil =>
    intro acc h
    simp only [List.map_nil, List.filterMap_nil, List.append_nil, retrieveAux]
    exact (List.take_of_length_le (Nat.le_of_lt h)).symm
  | cons e l ih =>
    intro acc h
    cases e with
    | none =>
      simp only [List.map_cons, optRecMsg, retrieveAux, List.filterMap_cons, matchContent,
        parsedQuery]
      rw [if_neg (by decide : ¬ (("memory" : String) = "summary"))]
      exact ih acc h
    | some i =>
      simp only [List.map_cons, optRecMsg, recMsgOf, retrieveAux, List.filterMap_cons,
        matchContent, parsedQuery]
      rw [if_neg (by decide : ¬ (("memory" : String) = "summary"))]
      by_cases ho : overlapB qw i.query = true
      · simp only [ho, if_true, ite_true]
        by_cases hc : maxI ≤ (acc ++ [Content.record i]).length
        · rw [if_pos hc]
          have hlen : (acc ++ [Content.record i]).length = acc.length + 1 := by simp
          have hmax : maxI = acc.length + 1 := by omega
          rw [List.take_append_eq_append_take, hmax,
            List.take_of_length_le (by omega : acc.length ≤ acc.length + 1)]
          simp
        · rw [if_neg hc]
          have hlt : (acc ++ [Content.record i]).length < maxI := by
            simp at hc ⊢; omega
          rw [ih _ hlt]
          simp
      · simp only [ho, if_false, ite_false]
        rw [if_neg (by omega : ¬ (maxI ≤ acc.length))]
        exact ih acc h

lemma retrieveAux_map_opt_summary (qw : List String) (maxI : ℕ) (s : SummaryData) :
    ∀ (l : List (Option Interaction)) (acc : List Content), acc.length < maxI →
    retrieveAux qw maxI (l.map optRecMsg ++ [sumMsgOf s]) acc =
      (acc ++ l.filterMap (matchContent qw) ++ [Content.summaryC s]).take maxI := by
  intro l
  induction l with
  | nil =>
    intro acc h
    simp only [List.map_nil, List.nil_append, List.filterMap_nil, List.append_nil,
      retrieveAux, sumMsgOf]
    rw [if_pos trivial, ite_self,
      List.take_of_length_le (by simp; omega : (acc ++ [Content.summaryC s]).length ≤ maxI)]
  | cons e l ih =>
    intro acc h
    cases e with
    | none =>
      simp only [List.map_cons, optRecMsg, List.cons_append, List.append_eq, retrieveAux,
        List.filterMap_cons, matchContent, parsedQuery]
      rw [if_neg (by decide : ¬ (("memory" : String) = "summary"))]
      exact ih acc h
    | some i =>
      simp only [List.map_cons, optRecMsg, recMsgOf, List.cons_append, List.append_eq,
        retrieveAux, List.filterMap_cons, matchContent, parsedQuery]
      rw [if_neg (by decide : ¬ (("memory" : String) = "summary"))]
      by_cases ho : overlapB qw i.query = true
      · simp only [ho, if_true, ite_true]
        by_cases hc : maxI ≤ (acc ++ [Content.record i]).length
        · rw [if_pos hc]
          have hmax : maxI = acc.length + 1 := by simp at hc; omega
          rw [List.append_assoc, List.take_append_eq_append_take, hmax,
            List.take_of_length_le (by omega : acc.length ≤ acc.length + 1)]
          simp
        · rw [if_neg hc]
          have hlt : (acc ++ [Content.record i]).length < maxI := by
            simp at hc ⊢; omega
          rw [ih _ hlt]
          simp
      · simp only [ho, if_false, ite_false]
        rw [if_neg (by omega : ¬ (maxI ≤ acc.length))]
        exact ih acc h

lemma retrieveAux_length_le (qw : List String) (maxI : ℕ) :
    ∀ (msgs : List Msg) (acc : List Content), acc.length < maxI →
    (retrieveAux qw maxI msgs acc).length ≤ maxI := by
  intro msgs
  induction msgs with
  | nil =>
    intro acc h
    simpa [retrieveAux] using Nat.le_of_lt h
  | cons m rest ih =>
    intro acc h
    simp only [retrieveAux]
    by_cases hr : m.role = "summary"
    · rw [if_pos hr]
      by_cases hc : maxI ≤ (acc ++ [m.content]).length
      · rw [if_pos hc]; simp; omega
      · rw [if_neg hc]
        exact ih _ (by simp at hc ⊢; omega)
    · rw [if_neg hr]
      rcases hq : parsedQuery m.content with _ | mq
      · exact ih acc h
      · by_cases ho : overlapB qw mq = true
        · simp only [ho, if_true, ite_true]
          by_cases hc : maxI ≤ (acc ++ [m.content]).length
          · rw [if_pos hc]; simp; omega
          · rw [if_neg hc]
            exact ih _ (by simp at hc ⊢; omega)
        · simp only [ho, if_false, ite_false]
          rw [if_neg (by omega : ¬ (maxI ≤ acc.length))]
          exact ih acc h

lemma matched_isRecord {qw : List String} {l : List (Option Interaction)} {c : Content}
    (hc : c ∈ l.filterMap (matchContent qw)) : isRecordB c = true := by
  rcases List.mem_filterMap.mp hc with ⟨a, _, ha⟩
  cases a with
  | none => simp [matchContent] at ha
  | some i =>
    by_cases ho : overlapB qw i.query = true
    · simp [matchContent, ho] at ha
      subst ha
      rfl
    · simp [matchContent, ho] at ha

/-! Helper lemmas about appending and compaction. -/

lemma add_interaction_threshold (mm : MemoryManager) (i : Interaction) :
    (add_interaction mm i).compression_threshold = mm.compression_threshold := by
  by_cases h : mm.max_memory_size < mm.memory.length + 1 <;>
    simp [add_interaction, h]

lemma add_interaction_max (mm : MemoryManager) (i : Interaction) :
    (add_interaction mm i).max_memory_size = mm.max_memory_size := by
  by_cases h : mm.max_memory_size < mm.memory.length + 1 <;>
    simp [add_interaction, h]

lemma foldl_add_threshold (l : List Interaction) (mm : MemoryManager) :
    (l.foldl add_interaction mm).compression_threshold = mm.compression_threshold := by
  induction l generalizing mm with
  | nil => rfl
  | cons a l ih => rw [List.foldl_cons, ih, add_interaction_threshold]

lemma foldl_add_max (l : List Interaction) (mm : MemoryManager) :
    (l.foldl add_interaction mm).max_memory_size = mm.max_memory_size := by
  induction l generalizing mm with
  | nil => rfl
  | cons a l ih => rw [List.foldl_cons, ih, add_interaction_max]

lemma add_interaction_length (mm : MemoryManager) (i : Interaction)
    (ht : 1 ≤ mm.compression_threshold) :
    ((add_interaction mm i).memory).length
      ≤ max mm.max_memory_size (mm.compression_threshold + 1) := by
  by_cases h1 : mm.max_memory_size < mm.memory.length + 1
  · rw [show (add_interaction mm i).memory
        = compress_memory mm.compression_threshold (mm.memory ++ [recMsgOf i]) by
      simp [add_interaction, h1]]
    unfold compress_memory
    by_cases h2 : mm.compression_threshold < (mm.memory ++ [recMsgOf i]).length
    · rw [if_pos h2]
      unfold pyLastSlice
      rw [if_neg (by omega : ¬ mm.compression_threshold = 0)]
      simp only [List.length_cons, List.length_drop, List.length_append,
        List.length_singleton]
      simp at h2
      omega
    · rw [if_neg h2]
      simp at h2 ⊢
      omega
  · rw [show (add_interaction mm i).memory = mm.memory ++ [recMsgOf i] by
      simp [add_interaction, h1]]
    simp at h1 ⊢
    omega

lemma filterMap_cost_map (l : List Interaction) :
    (l.map recMsgOf).filterMap (fun m => parsedCost m.content) = l.map Interaction.cost := by
  induction l with
  | nil => rfl
  | cons a l ih =>
    simp only [List.map_cons, List.filterMap_cons]
    rw [show parsedCost (recMsgOf a).content = some a.cost from rfl, ih]

/-! Helper lemmas about the routing loop. -/

lemma routeFold_unavail (locals clouds : List String) (a : ComplexitySignals) (cw sw qw : ℚ) :
    ∀ (catalog : List (String × ModelInfo)) (st : RouteState),
      (∀ p ∈ catalog, p.1 ∉ locals ∧ p.1 ∉ clouds) →
      catalog.foldl (routeStep locals clouds a cw sw qw) st = st := by
  intro catalog
  induction catalog with
  | nil => intro st _; rfl
  | cons p rest ih =>
    intro st h
    have hp := h p (List.mem_cons_self p rest)
    rw [List.foldl_cons,
      show routeStep locals clouds a cw sw qw st p = st by
        unfold routeStep
        rw [if_neg (not_or.mpr ⟨hp.1, hp.2⟩)]]
    exact ih st (fun x hx => h x (List.mem_cons_of_mem p hx))

lemma lookupInfo_eq_none (catalog : List (String × ModelInfo)) (name : String)
    (h : ∀ p ∈ catalog, p.1 ≠ name) : lookupInfo catalog name = none := by
  unfold lookupInfo
  rw [List.find?_eq_none.mpr]
  · rfl
  · intro x hx
    simpa using h x hx

/-! Claim C1. -/

/-- C1 counterexample.  The claim states that a `MemorySummary` in the log is
always included in the retrieval result when `max_items ≥ 1`, placed ahead of
matched records.  On the log `[summary, record]` where the record matches the
query: with `max_items = 1` the matching record alone is returned and the
summary is dropped (the scan visits the summary last, after the cap filled);
with `max_items = 2` the summary appears after the record, not ahead of it. -/
theorem C1_counterexample :
    retrieve_relevant_context mmC1 "hello" 1 = [Content.record (mkI "hello" 0)] ∧
    Content.summaryC sC1 ∉ retrieve_relevant_context mmC1 "hello" 1 ∧
    retrieve_relevant_context mmC1 "hello" 2
      = [Content.record (mkI "hello" 0), Content.summaryC sC1] := by
  refine ⟨by decide, by decide, by decide⟩

/-- C1 (amended): on a log consisting of a `MemorySummary` followed by
records, retrieval with `max_items ≥ 1` returns the newest-first matching
records followed by the summary content, the whole truncated to `max_items`.
Hence the summary counts toward the cap, is included exactly when fewer than
`max_items` records matched, and is placed after (not before) the matched
records; on a log containing only a summary, a query sharing no token with
any stored query still returns exactly the summary. -/
theorem C1_amended (s : SummaryData) (recs : List Interaction) (q : String)
    (t mx maxI : ℕ) (h : 1 ≤ maxI) :
    retrieve_relevant_context
        { compression_threshold := t, max_memory_size := mx,
          memory := sumMsgOf s :: recs.map recMsgOf } q maxI
      = (matchedRecords q recs ++ [Content.summaryC s]).take maxI := by
  have h0 : ([] : List Content).length < maxI := by simpa using h
  have hmap : (recs.map recMsgOf).reverse = (recs.reverse.map some).map optRecMsg := by
    rw [List.map_map]
    simp only [List.map_reverse]
    rfl
  unfold retrieve_relevant_context
  rw [List.reverse_cons, hmap, retrieveAux_map_opt_summary _ _ _ _ _ h0,
    List.filterMap_map]
  rfl

/-- C1 witness: the amended statement evaluated on a concrete log with one
matching record, a summary and cap 2. -/
theorem C1_witness :
    1 ≤ 2 ∧
    retrieve_relevant_context
        { compression_threshold := 7, max_memory_size := 9,
          memory := sumMsgOf sWC1 :: [mkI "alpha" 2].map recMsgOf } "alpha beta" 2
      = (matchedRecords "alpha beta" [mkI "alpha" 2] ++ [Content.summaryC sWC1]).take 2 :=
  ⟨by decide, C1_amended sWC1 [mkI "alpha" 2] "alpha beta" 7 9 2 (by decide)⟩

/-! Claim C2. -/

/-- C2 counterexample.  With threshold 1 and ceiling 2, after four appends of
cost-5 records the second compaction folds the prior summary (which holds
2 interactions and cost 10) together with one cost-5 record.  The claim
requires `interactionCount = 1` (one folded record) and `totalCost = 15`
(5 plus the previously folded 10); the code produces `interactionCount = 2`
(the folded summary message is counted) and `totalCost = 5` (the prior
summary stores its cost under the total_cost key, so the cost lookup during
folding yields the default 0 and the 10 is lost). -/
theorem C2_counterexample :
    (headSummary mmC2.memory).map SummaryData.interactionCount = some 2 ∧
    (headSummary mmC2.memory).map SummaryData.interactionCount ≠ some 1 ∧
    (headSummary mmC2.memory).map SummaryData.total_cost = some 5 ∧
    (headSummary mmC2.memory).map SummaryData.total_cost ≠ some 15 := by
  refine ⟨by decide, by decide, ?_, ?_⟩ <;>
    norm_num [mmC2, add_interaction, compress_memory, pyLastSlice, pyDropLastSlice,
      create_summary, parsedCost, recMsgOf, sumMsgOf, headSummary, mkI, topicWordsOf,
      parsedQuery, List.filterMap_cons, List.sum_cons, List.sum_nil]

/-- C2 (amended): when an append to a log of shape
`optional prior summary ++ records` triggers compaction (the post-append
length exceeds both `max_memory_size` and `compression_threshold ≥ 1`), the
rebuilt log is one new summary followed by exactly the most recent
`compression_threshold` records; the new summary has `interactionCount`
equal to the number of folded log entries — the folded records PLUS any
folded prior summary message — and `totalCost` equal to the sum of the cost
fields of the folded records alone: a folded prior summary contributes 0,
its previously accumulated cost is not carried forward. -/
theorem C2_amended (t mx : ℕ) (ht : 1 ≤ t) (prior : Option SummaryData)
    (recs : List Interaction) (i : Interaction)
    (htrig : mx < (sumMsgsOf prior ++ recs.map recMsgOf).length + 1)
    (hfold : t < (sumMsgsOf prior ++ recs.map recMsgOf).length + 1) :
    ∃ s : SummaryData,
      (add_interaction
          { compression_threshold := t, max_memory_size := mx,
            memory := sumMsgsOf prior ++ recs.map recMsgOf } i).memory
        = sumMsgOf s :: ((recs ++ [i]).drop ((recs ++ [i]).length - t)).map recMsgOf ∧
      s.interactionCount = (sumMsgsOf prior ++ recs.map recMsgOf).length + 1 - t ∧
      s.total_cost
        = (((recs ++ [i]).take ((recs ++ [i]).length - t)).map Interaction.cost).sum ∧
      ((recs ++ [i]).drop ((recs ++ [i]).length - t)).length = t := by
  have hadd : (add_interaction
      { compression_threshold := t, max_memory_size := mx,
        memory := sumMsgsOf prior ++ recs.map recMsgOf } i).memory
      = compress_memory t ((sumMsgsOf prior ++ recs.map recMsgOf) ++ [recMsgOf i]) := by
    simp only [add_interaction]
    rw [if_pos (by simpa using htrig)]
  have happ : (sumMsgsOf prior ++ recs.map recMsgOf) ++ [recMsgOf i]
      = sumMsgsOf prior ++ (recs ++ [i]).map recMsgOf := by
    simp [List.map_append]
  rw [hadd, happ]
  have hR : (recs ++ [i]).length = recs.length + 1 := by simp
  cases prior with
  | none =>
    simp only [sumMsgsOf, List.nil_append, List.length_map] at htrig hfold ⊢
    have hA : t ≤ recs.length + 1 := by omega
    unfold compress_memory
    rw [if_pos (by rw [List.length_map, hR]; omega)]
    unfold pyDropLastSlice pyLastSlice
    rw [if_neg (by omega : ¬ t = 0), if_neg (by omega : ¬ t = 0), List.length_map,
      ← List.map_take, ← List.map_drop]
    refine ⟨create_summary (((recs ++ [i]).take ((recs ++ [i]).length - t)).map recMsgOf),
      rfl, ?_, ?_, ?_⟩
    · simp only [create_summary, List.length_map, List.length_take, hR]
      omega
    · simp only [create_summary]
      rw [filterMap_cost_map]
    · simp only [List.length_drop, hR]
      omega
  | some s0 =>
    simp only [sumMsgsOf, List.singleton_append, List.length_cons, List.length_map]
      at htrig hfold ⊢
    have hA : t ≤ recs.length + 1 := by omega
    unfold compress_memory
    rw [if_pos (by simp only [List.length_cons, List.length_map, hR]; omega)]
    unfold pyDropLastSlice pyLastSlice
    rw [if_neg (by omega : ¬ t = 0), if_neg (by omega : ¬ t = 0)]
    rw [show (sumMsgOf s0 :: (recs ++ [i]).map recMsgOf).length - t
        = ((recs ++ [i]).length - t) + 1 by
      simp only [List.length_cons, List.length_map, hR]; omega]
    rw [List.take_succ_cons, List.drop_succ_cons, ← List.map_take, ← List.map_drop]
    refine ⟨create_summary
        (sumMsgOf s0 :: ((recs ++ [i]).take ((recs ++ [i]).length - t)).map recMsgOf),
      rfl, ?_, ?_, ?_⟩
    · simp only [create_summary, List.length_cons, List.length_map, List.length_take, hR]
      omega
    · simp only [create_summary, List.filterMap_cons]
      rw [show parsedCost (sumMsgOf s0).content = some (0 : ℚ) from rfl]
      rw [filterMap_cost_map, List.sum_cons, zero_add]
    · simp only [List.length_drop, hR]
      omega

/-- C2 witness: the amended statement evaluated for threshold 1, ceiling 2,
a prior summary and one stored record, with one more record appended. -/
theorem C2_witness :
    1 ≤ 1 ∧
    2 < (sumMsgsOf (some sPC2) ++ [mkI "a" 5].map recMsgOf).length + 1 ∧
    1 < (sumMsgsOf (some sPC2) ++ [mkI "a" 5].map recMsgOf).length + 1 ∧
    (∃ s : SummaryData,
      (add_interaction
          { compression_threshold := 1, max_memory_size := 2,
            memory := sumMsgsOf (some sPC2) ++ [mkI "a" 5].map recMsgOf }
          (mkI "b" 5)).memory
        = sumMsgOf s
            :: (([mkI "a" 5] ++ [mkI "b" 5]).drop
                (([mkI "a" 5] ++ [mkI "b" 5]).length - 1)).map recMsgOf ∧
      s.interactionCount
        = (sumMsgsOf (some sPC2) ++ [mkI "a" 5].map recMsgOf).length + 1 - 1 ∧
      s.total_cost
        = ((([mkI "a" 5] ++ [mkI "b" 5]).take
            (([mkI "a" 5] ++ [mkI "b" 5]).length - 1)).map Interaction.cost).sum ∧
      (([mkI "a" 5] ++ [mkI "b" 5]).drop
          (([mkI "a" 5] ++ [mkI "b" 5]).length - 1)).length = 1) :=
  ⟨by decide, by decide, by decide,
    C2_amended 1 2 (by decide) (some sPC2) [mkI "a" 5] (mkI "b" 5) (by decide) (by decide)⟩

/-! Claim C3. -/

/-- C3 counterexample.  The claim asserts the bound for every configured
`max_memory_size` and `compression_threshold`.  With threshold 0 and ceiling
1, the Python slices `memory[-0:]` and `memory[:-0]` are the whole list and
the empty list respectively, so each compaction PREPENDS a summary without
folding anything: after two appends the log has length 3, exceeding
`max(1, 0 + 1) = 1`, and the log grows without bound as appends continue. -/
theorem C3_counterexample :
    ((List.foldl add_interaction mmC3 [mkI "a" 0, mkI "a" 0]).memory).length = 3 ∧
    ¬ ((List.foldl add_interaction mmC3 [mkI "a" 0, mkI "a" 0]).memory).length
        ≤ max 1 (0 + 1) := by
  refine ⟨by decide, by decide⟩

/-- C3 (amended): for every `compression_threshold ≥ 1` and every
`max_memory_size`, after any sequence of `add_interaction` calls starting
from the empty log the length is at most
`max (max_memory_size) (compression_threshold + 1)`.  Compaction is a plain
function call inside `add_interaction`, hence synchronous: the bound already
holds on its return value. -/
theorem C3_amended (t mx : ℕ) (ht : 1 ≤ t) (inputs : List Interaction) :
    ((inputs.foldl add_interaction
        { compression_threshold := t, max_memory_size := mx, memory := [] }).memory).length
      ≤ max mx (t + 1) := by
  induction inputs using List.reverseRecOn with
  | nil => simp
  | append_singleton l a _ =>
    rw [List.foldl_append, List.foldl_cons, List.foldl_nil]
    set mm := l.foldl add_interaction
      { compression_threshold := t, max_memory_size := mx, memory := [] } with hmm
    have h1 : mm.compression_threshold = t := foldl_add_threshold l _
    have h2 : mm.max_memory_size = mx := foldl_add_max l _
    have h3 := add_interaction_length mm a (by rw [h1]; exact ht)
    rw [h1, h2] at h3
    exact h3

/-- C3 witness: the amended bound evaluated after three appends with
threshold 1 and ceiling 2. -/
theorem C3_witness :
    1 ≤ 1 ∧
    ((([mkI "a" 0, mkI "b" 0, mkI "c" 0]).foldl add_interaction
        { compression_threshold := 1, max_memory_size := 2, memory := [] }).memory).length
      ≤ max 2 (1 + 1) :=
  ⟨by decide, C3_amended 1 2 (by decide) [mkI "a" 0, mkI "b" 0, mkI "c" 0]⟩

/-! Claim C5. -/

/-- C5: when no catalog model name appears in either availability list, the
scoring loop selects nothing and `route_query` still returns a decision whose
model is the first configured local model when the local list is non-empty
and the fixed default name gpt-4o-mini otherwise (`fallbackName`), with a
reasoning trace that states the fallback explicitly. -/
theorem C5_fallback (r : IntelligentRouter) (q : String) (ctx : Option String)
    (prefs : Option UserPrefs)
    (h : ∀ p ∈ r.model_info, p.1 ∉ r.local_models ∧ p.1 ∉ r.cloud_models) :
    (route_query r q ctx prefs).model = fallbackName r.local_models ∧
    (route_query r q ctx prefs).reasoning = "Fallback to default model" := by
  simp only [route_query]
  rw [routeFold_unavail _ _ _ _ _ _ _ _ h]
  exact ⟨rfl, by decide⟩

/-- C5 witness: the fallback conclusion evaluated on a router whose only
configured backend is absent from the catalog. -/
theorem C5_witness :
    (∀ p ∈ rC5.model_info, p.1 ∉ rC5.local_models ∧ p.1 ∉ rC5.cloud_models) ∧
    ((route_query rC5 "hi" none none).model = fallbackName rC5.local_models ∧
      (route_query rC5 "hi" none none).reasoning = "Fallback to default model") :=
  ⟨by decide, C5_fallback rC5 "hi" none none (by decide)⟩

/-! Claim C6. -/

/-- C6: `route_query` is deterministic — two calls with an identical router
(catalog and availability lists), query, context and preferences return the
same `RoutingDecision` (hence the same model, reasoning string, confidence,
estimated cost and estimated latency). -/
theorem C6_deterministic (r : IntelligentRouter) (q : String) (ctx : Option String)
    (prefs : Option UserPrefs) (d1 d2 : RoutingDecision)
    (h1 : d1 = route_query r q ctx prefs) (h2 : d2 = route_query r q ctx prefs) :
    d1 = d2 := by
  rw [h1, h2]

/-- C6 witness: two identical calls on the example configuration agree. -/
theorem C6_witness :
    route_query rC6 "What is the capital of France?" none none
      = route_query rC6 "What is the capital of France?" none none :=
  C6_deterministic rC6 "What is the capital of France?" none none _ _ rfl rfl

/-! Claim C7. -/

/-- C7: for two backends with equal latency and equal quality score for the
given query, one with zero cost per token and one with positive cost per
token, raising the cost weight (with the speed and quality weights held
fixed) never decreases the total-score advantage of the zero-cost backend:
the score difference under the larger cost weight is at least the difference
under the smaller one.  `totalScoreOf` is exactly the score the routing loop
computes for an available candidate. -/
theorem C7_monotone (query : String) (ctx : Option String) (b0 b1 : ModelInfo)
    (sw qw c c2 : ℚ)
    (h0 : b0.cost_per_token = 0) (h1 : 0 < b1.cost_per_token)
    (hlat : b0.avg_latency = b1.avg_latency)
    (hq : qualityScoreOf (analyze_query_complexity query ctx) b0
        = qualityScoreOf (analyze_query_complexity query ctx) b1)
    (hcc : c ≤ c2) :
    totalScoreOf (analyze_query_complexity query ctx) c sw qw b0
        - totalScoreOf (analyze_query_complexity query ctx) c sw qw b1
      ≤ totalScoreOf (analyze_query_complexity query ctx) c2 sw qw b0
        - totalScoreOf (analyze_query_complexity query ctx) c2 sw qw b1 := by
  unfold totalScoreOf speedScoreOf
  rw [hq, hlat]
  have hc0 : costScoreOf b0 = 1 := by
    unfold costScoreOf
    rw [if_pos h0]
  rw [hc0]
  have hc1 : costScoreOf b1 ≤ 1 := by
    unfold costScoreOf
    rw [if_neg h1.ne']
    exact max_le zero_le_one (by nlinarith)
  have key : (1 - costScoreOf b1) * c ≤ (1 - costScoreOf b1) * c2 :=
    mul_le_mul_of_nonneg_left hcc (sub_nonneg.mpr hc1)
  nlinarith [key]

/-- C7 witness: the monotonicity instance for a free and a paid profile of
equal latency and capabilities, cost weights 1 and 4. -/
theorem C7_witness :
    miC7a.cost_per_token = 0 ∧ (0 : ℚ) < miC7b.cost_per_token ∧ (1 : ℚ) ≤ 4 ∧
    (totalScoreOf (analyze_query_complexity "hi" none) 1 2 3 miC7a
        - totalScoreOf (analyze_query_complexity "hi" none) 1 2 3 miC7b
      ≤ totalScoreOf (analyze_query_complexity "hi" none) 4 2 3 miC7a
        - totalScoreOf (analyze_query_complexity "hi" none) 4 2 3 miC7b) :=
  ⟨rfl, by decide, by decide,
    C7_monotone "hi" none miC7a miC7b 2 3 1 4 rfl (by decide) rfl rfl (by decide)⟩

/-! Claim C8. -/

/-- C8 counterexample.  The claim asserts the cap for every `max_items`.
With `max_items = 0` and a log whose most recent record matches the query,
the source appends the record BEFORE checking the cap, so one entry is
returned and the cap 0 is exceeded. -/
theorem C8_counterexample :
    ¬ ((retrieve_relevant_context mmC8 "hello" 0).length ≤ 0) ∧
    retrieve_relevant_context mmC8 "hello" 0 = [Content.record (mkI "hello" 0)] := by
  refine ⟨by decide, by decide⟩

/-- C8 (amended): for `max_items ≥ 1`, (a) on every log the retrieval result
has at most `max_items` entries, and (b) on a log of shape
`optional summary ++ records and undecodable entries`, the record entries of
the result are exactly the first `max_items` entries found by scanning the
records newest-to-oldest and keeping those whose lower-cased
whitespace-tokenized stored query intersects the token set of the input
query, undecodable entries being skipped without aborting the scan. -/
theorem C8_amended :
    (∀ (t mx : ℕ) (mem : List Msg) (q : String) (maxI : ℕ), 1 ≤ maxI →
      (retrieve_relevant_context
          { compression_threshold := t, max_memory_size := mx, memory := mem } q maxI).length
        ≤ maxI) ∧
    (∀ (t mx : ℕ) (osum : Option SummaryData) (tail : List (Option Interaction))
        (q : String) (maxI : ℕ), 1 ≤ maxI →
      recordEntries
          (retrieve_relevant_context
            { compression_threshold := t, max_memory_size := mx,
              memory := sumMsgsOf osum ++ tail.map optRecMsg } q maxI)
        = (matchedOptRecords q tail).take maxI) := by
  constructor
  · intro t mx mem q maxI h
    exact retrieveAux_length_le _ _ _ _ (by simpa using h)
  · intro t mx osum tail q maxI h
    have h0 : ([] : List Content).length < maxI := by simpa using h
    have hmap : (tail.map optRecMsg).reverse = tail.reverse.map optRecMsg := by
      simp [List.map_reverse]
    cases osum with
    | none =>
      unfold retrieve_relevant_context
      simp only [sumMsgsOf, List.nil_append]
      rw [hmap, retrieveAux_map_opt _ _ _ _ h0, List.nil_append]
      unfold recordEntries matchedOptRecords
      exact List.filter_eq_self.mpr
        (fun c hc => matched_isRecord (List.mem_of_mem_take hc))
    | some s =>
      unfold retrieve_relevant_context
      simp only [sumMsgsOf, List.singleton_append]
      rw [List.reverse_cons, hmap, retrieveAux_map_opt_summary _ _ _ _ _ h0,
        List.nil_append, List.take_append_eq_append_take]
      unfold recordEntries matchedOptRecords
      rw [List.filter_append,
        List.filter_eq_self.mpr (fun c hc => matched_isRecord (List.mem_of_mem_take hc))]
      have hz : ∀ n : ℕ,
          List.filter isRecordB (List.take n [Content.summaryC s]) = [] := by
        intro n
        cases n with
        | zero => rfl
        | succ k => simp [List.take_succ_cons, isRecordB]
      rw [hz, List.append_nil]

/-- C8 witness: both amended conclusions evaluated on a concrete log with a
summary, one matching record and cap 1. -/
theorem C8_witness :
    1 ≤ 1 ∧
    (retrieve_relevant_context
        { compression_threshold := 3, max_memory_size := 4,
          memory := [recMsgOf (mkI "x y" 0)] } "y" 1).length ≤ 1 ∧
    recordEntries
        (retrieve_relevant_context
          { compression_threshold := 3, max_memory_size := 4,
            memory := sumMsgsOf (some sWC8) ++ [some (mkI "x y" 0)].map optRecMsg } "y" 1)
      = (matchedOptRecords "y" [some (mkI "x y" 0)]).take 1 :=
  ⟨by decide, C8_amended.1 3 4 [recMsgOf (mkI "x y" 0)] "y" 1 (by decide),
    C8_amended.2 3 4 (some sWC8) [some (mkI "x y" 0)] "y" 1 (by decide)⟩

/-! Claim C9. -/

/-- C9: `analyze_query_complexity` is a pure function of the query text — the
context argument never affects the result — and its four fields are exactly
the fixed keyword formulas of the claim: general complexity is the sum of
0.2 (for length over 500) and 0.3 (for a reasoning keyword hit) capped at 1;
the code, multimodal and math requirements are 0.5, 0.8 and 0.4 on a keyword
hit and 0 otherwise, all hits being case-insensitive substring containment
against the lower-cased query. -/
theorem C9_analyze (query : String) (ctx ctx2 : Option String) :
    analyze_query_complexity query ctx = analyze_query_complexity query ctx2 ∧
    (analyze_query_complexity query ctx).general_complexity
      = min 1 ((if 500 < query.length then (0.2 : ℚ) else 0)
          + (if reasoning_keywords.any (fun k => strContainsSub (pyLower query) k)
              then (0.3 : ℚ) else 0)) ∧
    (analyze_query_complexity query ctx).code_requirement
      = (if code_keywords.any (fun k => strContainsSub (pyLower query) k)
          then (0.5 : ℚ) else 0) ∧
    (analyze_query_complexity query ctx).multimodal_requirement
      = (if multimodal_keywords.any (fun k => strContainsSub (pyLower query) k)
          then (0.8 : ℚ) else 0) ∧
    (analyze_query_complexity query ctx).math_requirement
      = (if math_keywords.any (fun k => strContainsSub (pyLower query) k)
          then (0.4 : ℚ) else 0) := by
  refine ⟨rfl, ?_, rfl, rfl, rfl⟩
  exact min_comm _ 1

/-! Claim C10. -/

/-- C10: when the scoring loop selects no candidate (no builtin catalog name
is in either availability list), the returned confidence is the initial
sentinel score -1; and when additionally the fallback model name is not a
catalog entry, the estimated cost is 0 and the estimated latency is 1000
(the defaults of the dict lookups on a missing key). -/
theorem C10_sentinel (locals clouds : List String) (q : String) (ctx : Option String)
    (prefs : Option UserPrefs)
    (h : ∀ p ∈ builtinModelInfo, p.1 ∉ locals ∧ p.1 ∉ clouds) :
    (route_query
        { local_models := locals, cloud_models := clouds, model_info := builtinModelInfo }
        q ctx prefs).confidence = -1 ∧
    ((∀ p ∈ builtinModelInfo, p.1 ≠ fallbackName locals) →
      (route_query
          { local_models := locals, cloud_models := clouds,
            model_info := builtinModelInfo } q ctx prefs).estimated_cost = 0 ∧
      (route_query
          { local_models := locals, cloud_models := clouds,
            model_info := builtinModelInfo } q ctx prefs).estimated_latency = 1000) := by
  simp only [route_query]
  rw [routeFold_unavail _ _ _ _ _ _ _ _ h]
  refine ⟨rfl, ?_⟩
  intro h2
  rw [lookupInfo_eq_none _ _ h2]
  exact ⟨zero_mul _, rfl⟩

/-- C10 witness: the sentinel and the default cost and latency evaluated on a
router whose only configured backend is absent from the catalog. -/
theorem C10_witness :
    (∀ p ∈ builtinModelInfo, p.1 ∉ ["my-local-model"] ∧ p.1 ∉ ([] : List String)) ∧
    (∀ p ∈ builtinModelInfo, p.1 ≠ fallbackName ["my-local-model"]) ∧
    (route_query
        { local_models := ["my-local-model"], cloud_models := [],
          model_info := builtinModelInfo } "hi" none none).confidence = -1 ∧
    (route_query
        { local_models := ["my-local-model"], cloud_models := [],
          model_info := builtinModelInfo } "hi" none none).estimated_cost = 0 ∧
    (route_query
        { local_models := ["my-local-model"], cloud_models := [],
          model_info := builtinModelInfo } "hi" none none).estimated_latency = 1000 :=
  ⟨by decide, by decide,
    (C10_sentinel ["my-local-model"] [] "hi" none none (by decide)).1,
    ((C10_sentinel ["my-local-model"] [] "hi" none none (by decide)).2 (by decide)).1,
    ((C10_sentinel ["my-local-model"] [] "hi" none none (by decide)).2 (by decide)).2⟩

end Orchestrator
